import Mathlib

/-!
Verification development for the wgpu-test renderer.

The relevant Rust modules are embedded shallowly:
* src/instance.rs (ModelInstance, the raw instance matrix conversion) and the
  cgmath matrix constructors it calls, over exact rationals standing in for f32;
* src/common/render.rs (RenderData, update_instance_buffers) with wgpu buffers
  modelled as lists of instance slots plus a byte size;
* src/common/model.rs (Model::load, Mesh, Material, DrawModels::draw_models),
  taking the output of the external OBJ parser (tobj) as input;
* src/common/texture.rs is absent from the tree, so TextureAtlas is modelled
  from the specification (see the doc comment on TextureAtlas);
* src/camera.rs over the reals, with the cgmath perspective and look-at
  constructors transcribed from the cgmath sources.
-/

set_option maxHeartbeats 1000000

namespace WgpuTest

/-! ## Instance transform math (src/instance.rs and cgmath), over ℚ -/

/-- cgmath Vector3 of f32 components, idealised over ℚ. -/
structure Vector3 where
  x : ℚ
  y : ℚ
  z : ℚ
deriving DecidableEq

/-- cgmath Quaternion: scalar part s, vector part (vx, vy, vz). -/
structure Quaternion where
  s : ℚ
  vx : ℚ
  vy : ℚ
  vz : ℚ
deriving DecidableEq

/-- cgmath Vector3::zero. -/
def Vector3.zero : Vector3 := ⟨0, 0, 0⟩

/-- cgmath Quaternion::zero: the all-zero quaternion (not a unit quaternion). -/
def Quaternion.zero : Quaternion := ⟨0, 0, 0, 0⟩

/-- 4x4 matrices over the idealised f32 scalars, indexed row then column. -/
abbrev Mat4 := Matrix (Fin 4) (Fin 4) ℚ

/-- cgmath Matrix4::from_translation; cgmath constructs it column-major, the
rows are transcribed here. -/
def Matrix4.from_translation (v : Vector3) : Mat4 :=
  !![1, 0, 0, v.x;
     0, 1, 0, v.y;
     0, 0, 1, v.z;
     0, 0, 0, 1]

/-- cgmath conversion From Quaternion for Matrix4 (rotation matrix), rows
transcribed from the column-major constructor in cgmath. -/
def Matrix4.from_quaternion (q : Quaternion) : Mat4 :=
  let x2 := q.vx + q.vx
  let y2 := q.vy + q.vy
  let z2 := q.vz + q.vz
  let xx2 := x2 * q.vx
  let xy2 := x2 * q.vy
  let xz2 := x2 * q.vz
  let yy2 := y2 * q.vy
  let yz2 := y2 * q.vz
  let zz2 := z2 * q.vz
  let sy2 := y2 * q.s
  let sz2 := z2 * q.s
  let sx2 := x2 * q.s
  !![1 - yy2 - zz2, xy2 - sz2, xz2 + sy2, 0;
     xy2 + sz2, 1 - xx2 - zz2, yz2 - sx2, 0;
     xz2 - sy2, yz2 + sx2, 1 - xx2 - yy2, 0;
     0, 0, 0, 1]

/-- src/instance.rs ModelInstance: a position plus a rotation quaternion. -/
structure ModelInstance where
  position : Vector3
  rotation : Quaternion
deriving DecidableEq

/-- impl Default for ModelInstance: zero position and the all-zero quaternion. -/
def ModelInstance.default : ModelInstance := ⟨Vector3.zero, Quaternion.zero⟩

/-- impl From (and its common/instance.rs twin used by common/render.rs):
instance transform = translation matrix times rotation matrix.  The raw
instance is the resulting 4x4 matrix. -/
def RawInstance.ofModelInstance (inst : ModelInstance) : Mat4 :=
  Matrix4.from_translation inst.position * Matrix4.from_quaternion inst.rotation

/-- size_of RawInstance in bytes: 16 f32 fields of 4 bytes. -/
def rawInstanceSize : ℕ := 64

/-! ## wgpu buffers, modelled at instance-slot granularity -/

/-- A wgpu vertex buffer holding raw instance matrices.  Its byte size is
determined by the slots it was created with. -/
structure GpuBuffer where
  contents : List Mat4

/-- wgpu Buffer::size in bytes. -/
def GpuBuffer.size (b : GpuBuffer) : ℕ := rawInstanceSize * b.contents.length

/-- device.create_buffer_init: a fresh buffer sized exactly to its contents. -/
def GpuBuffer.init (data : List Mat4) : GpuBuffer := ⟨data⟩

/-- queue.write_buffer at byte offset 0: overwrites the leading slots, slots
beyond the written data keep their stale contents. -/
def GpuBuffer.write_zero (b : GpuBuffer) (data : List Mat4) : GpuBuffer :=
  ⟨data ++ b.contents.drop data.length⟩

/-- Buffer capacity in instance slots, as computed by update_instance_buffers:
byte size divided by the raw instance size. -/
def GpuBuffer.capacity (b : GpuBuffer) : ℕ := b.size / rawInstanceSize

/-! ## Texture cache -/

/-- Modelled from the spec: src/common/texture.rs (Texture and TextureAtlas) is
not part of the source tree here, only its callers are.  Spec 4.1: the cache
stores shared texture handles keyed by logical path; a handle is identified by
its shared-pointer identity, modelled as a numeric id.  next_id supplies fresh
ids for newly uploaded textures and load_count counts decode-plus-upload
operations (the load counter of spec section 8). -/
structure TextureAtlas where
  entries : List (String × ℕ)
  next_id : ℕ
  load_count : ℕ
deriving DecidableEq

/-- TextureAtlas::new: the empty cache. -/
def TextureAtlas.new : TextureAtlas := ⟨[], 0, 0⟩

/-- Modelled from the spec: TextureAtlas::get.  disk_ok models whether the
image file at a path exists and decodes.  A cache hit returns the resident
handle untouched; a miss decodes, uploads and inserts on success, and on
failure propagates the error leaving the cache unchanged (no partial entry). -/
def TextureAtlas.get (disk_ok : String → Bool) (atlas : TextureAtlas)
    (path : String) : Except String ℕ × TextureAtlas :=
  match atlas.entries.lookup path with
  | some id => (.ok id, atlas)
  | none =>
      if disk_ok path then
        (.ok atlas.next_id,
         ⟨(path, atlas.next_id) :: atlas.entries, atlas.next_id + 1,
          atlas.load_count + 1⟩)
      else (.error path, atlas)

/-! ## Model data (src/common/model.rs) -/

/-- src/common/model.rs ModelVertex: position, texture coordinates, normal. -/
structure ModelVertex where
  position : ℚ × ℚ × ℚ
  texture_coords : ℚ × ℚ
  normal : ℚ × ℚ × ℚ
deriving DecidableEq

/-- src/common/model.rs Material.  diffuse is the id of the shared texture
handle; the bind group is created from the diffuse texture view and sampler, so
it is identified here by the texture it binds. -/
structure Material where
  name : String
  diffuse : ℕ
  normal : Option ℕ
  bind_group : ℕ
deriving DecidableEq

/-- src/common/model.rs Mesh; the vertex and index buffers are immutable, so
they are carried as their contents. -/
structure Mesh where
  name : String
  vertex_buffer : List ModelVertex
  index_buffer : List ℕ
  indices_count : ℕ
  material_index : ℕ
deriving DecidableEq

/-- src/common/model.rs Model. -/
structure Model where
  name : String
  meshes : List Mesh
  materials : List Material
deriving DecidableEq

/-- impl PartialEq for Model: equality is by name alone. -/
def Model.beq (a b : Model) : Bool := a.name == b.name

/-- impl Hash for Model: only the name is fed to the hasher, so the resulting
hash is a function of the name alone, whatever the hasher. -/
def Model.hashWith (hasher : String → ℕ) (m : Model) : ℕ := hasher m.name

/-! ## tobj output: the input to Model::load -/

/-- The per-mesh data produced by tobj::load_obj with single_index and
triangulate: flat position, texture-coordinate and normal component streams, a
combined index stream and an optional material id. -/
structure TobjMesh where
  positions : List ℚ
  texcoords : List ℚ
  normals : List ℚ
  indices : List ℕ
  material_id : Option ℕ
deriving DecidableEq

/-- A named tobj model wrapping one mesh. -/
structure TobjModel where
  name : String
  mesh : TobjMesh
deriving DecidableEq

/-- A tobj material: name and optional diffuse texture path. -/
structure TobjMaterial where
  name : String
  diffuse_texture : Option String
deriving DecidableEq

/-- The ways Model::load can fail: a propagated tobj material-file error, a
propagated texture load error, or a panic from an out-of-bounds slice index
during vertex assembly. -/
inductive LoadError
  | obj_error (msg : String)
  | texture_load (path : String)
  | index_panic
deriving DecidableEq

/-! ## Vertex assembly (the zip over chunked component streams) -/

/-- slice::chunks(3): consecutive chunks of three components, the final chunk
possibly shorter. -/
def chunks3 : List ℚ → List (List ℚ)
  | [] => []
  | [a] => [[a]]
  | [a, b] => [[a, b]]
  | a :: b :: c :: rest => [a, b, c] :: chunks3 rest

/-- slice::chunks(2): consecutive chunks of two components, the final chunk
possibly shorter. -/
def chunks2 : List ℚ → List (List ℚ)
  | [] => []
  | [a] => [[a]]
  | a :: b :: rest => [a, b] :: chunks2 rest

/-- One vertex from one position, texture-coordinate and normal chunk.  The
Rust closure indexes the chunks directly; a missing component is a panic,
modelled as none. -/
def assemble_vertex (pos tex norm : List ℚ) : Option ModelVertex := do
  let p0 ← pos.get? 0
  let p1 ← pos.get? 1
  let p2 ← pos.get? 2
  let t0 ← tex.get? 0
  let t1 ← tex.get? 1
  let n0 ← norm.get? 0
  let n1 ← norm.get? 1
  let n2 ← norm.get? 2
  pure ⟨(p0, p1, p2), (t0, t1), (n0, n1, n2)⟩

/-- The map over the zipped chunk iterators, collecting vertices; a panic in
any closure call aborts the whole collection. -/
def assemble_all : List ((List ℚ × List ℚ) × List ℚ) → Option (List ModelVertex)
  | [] => some []
  | ptn :: rest =>
      match assemble_vertex ptn.1.1 ptn.1.2 ptn.2, assemble_all rest with
      | some v, some vs => some (v :: vs)
      | _, _ => none

/-- Vertex assembly in Model::load: positions chunked by 3, texture
coordinates by 2, normals by 3, zipped (zip stops at the shortest iterator)
and mapped into vertices. -/
def assemble_vertices (positions texcoords normals : List ℚ) :
    Option (List ModelVertex) :=
  assemble_all (((chunks3 positions).zip (chunks2 texcoords)).zip (chunks3 normals))

/-! ## Model::load -/

/-- The non-empty-materials arm of Model::load: for each tobj material, resolve
the diffuse texture path (falling back to default.png with a warning), request
it from the texture atlas, and build the material with its bind group. -/
def load_materials (disk_ok : String → Bool) (atlas : TextureAtlas) :
    List TobjMaterial → Except LoadError (List Material × TextureAtlas)
  | [] => .ok ([], atlas)
  | mat :: rest =>
      let diffuse_texture_path := mat.diffuse_texture.getD ("default.png")
      match TextureAtlas.get disk_ok atlas diffuse_texture_path with
      | (.error p, _) => .error (.texture_load p)
      | (.ok texId, atlas1) =>
          match load_materials disk_ok atlas1 rest with
          | .error e => .error e
          | .ok (mats, atlas2) =>
              .ok ({ name := mat.name, diffuse := texId, normal := none,
                     bind_group := texId } :: mats, atlas2)

/-- The mesh mapping of Model::load: assemble the vertex list (a panic aborts
the load), and take over indices, index count and material_id.unwrap_or(0). -/
def load_meshes : List TobjModel → Except LoadError (List Mesh)
  | [] => .ok []
  | tm :: rest =>
      match assemble_vertices tm.mesh.positions tm.mesh.texcoords tm.mesh.normals with
      | none => .error .index_panic
      | some vertices =>
          match load_meshes rest with
          | .error e => .error e
          | .ok ms =>
              .ok ({ name := tm.name, vertex_buffer := vertices,
                     index_buffer := tm.mesh.indices,
                     indices_count := tm.mesh.indices.length,
                     material_index := tm.mesh.material_id.getD 0 } :: ms)

/-- Model::load, taking the tobj::load_obj output as input: the propagated
material-file result, then the materials (with the single synthesized default
material when the file defines none), then the meshes, then the model named by
its path. -/
def Model.load (path : String) (disk_ok : String → Bool)
    (tobj_meshes : List TobjModel)
    (tobj_materials : Except String (List TobjMaterial))
    (texture_atlas : TextureAtlas) : Except LoadError (Model × TextureAtlas) :=
  match tobj_materials with
  | .error e => .error (.obj_error e)
  | .ok model_materials =>
      let materialsStep : Except LoadError (List Material × TextureAtlas) :=
        if model_materials.isEmpty then
          match TextureAtlas.get disk_ok texture_atlas ("default.png") with
          | (.error p, _) => .error (.texture_load p)
          | (.ok texId, atlas1) =>
              .ok ([{ name := "default-material", diffuse := texId,
                      normal := none, bind_group := texId }], atlas1)
        else
          load_materials disk_ok texture_atlas model_materials
      match materialsStep with
      | .error e => .error e
      | .ok (materials, atlas2) =>
          match load_meshes tobj_meshes with
          | .error e => .error e
          | .ok meshes =>
              .ok ({ name := path, meshes := meshes, materials := materials }, atlas2)

/-! ## InstancedModel, RenderData and the per-frame buffer synchronisation -/

/-- src/common/model.rs InstancedModel: a model, an optional instance list and
an optional instance buffer. -/
structure InstancedModel where
  model : Model
  instances : Option (List ModelInstance)
  instance_buffer : Option GpuBuffer

/-- impl From Model for InstancedModel: no instances, no buffer. -/
def InstancedModel.ofModel (m : Model) : InstancedModel := ⟨m, none, none⟩

/-- Capacity of the instance buffer in instance slots; 0 when no buffer
exists yet. -/
def InstancedModel.buffer_capacity (m : InstancedModel) : ℕ :=
  match m.instance_buffer with
  | some b => b.capacity
  | none => 0

/-- What the loop body of update_instance_buffers did for one model. -/
inductive BufferAction
  | skipped
  | created
  | resized
  | wrote_in_place
deriving DecidableEq

/-- True for the actions that allocate a fresh buffer. -/
def BufferAction.is_alloc : BufferAction → Bool
  | .created => true
  | .resized => true
  | _ => false

/-- The body of the update_instance_buffers loop for a single model
(src/common/render.rs lines 34 to 91), returning the updated model and what
happened: a model with instances None is skipped; otherwise the raw instance
data is rebuilt, and the buffer is created if absent, reallocated to exactly
the new size if the new count exceeds its slot capacity, and written in place
at offset zero otherwise. -/
def InstancedModel.update_instance_buffer_step (model : InstancedModel) :
    InstancedModel × BufferAction :=
  match model.instances with
  | none => (model, .skipped)
  | some insts =>
      let model_instance_data := insts.map RawInstance.ofModelInstance
      match model.instance_buffer with
      | some instance_buffer =>
          let current_instance_buffer_len := instance_buffer.size / rawInstanceSize
          let next_instance_buffer_len := insts.length
          if current_instance_buffer_len < next_instance_buffer_len then
            let fresh := GpuBuffer.init model_instance_data
            ({ model with instance_buffer := some fresh }, BufferAction.resized)
          else
            let written := instance_buffer.write_zero model_instance_data
            ({ model with instance_buffer := some written }, BufferAction.wrote_in_place)
      | none =>
          let fresh := GpuBuffer.init model_instance_data
          ({ model with instance_buffer := some fresh }, BufferAction.created)

/-- src/common/render.rs RenderData: the instanced models and the single
default-instance fallback buffer. -/
structure RenderData where
  models : List InstancedModel
  single_instance_buffer : GpuBuffer

/-- RenderData::new: no models, and the fallback buffer initialised with the
raw form of the single default instance. -/
def RenderData.new : RenderData :=
  ⟨[], GpuBuffer.init [RawInstance.ofModelInstance ModelInstance.default]⟩

/-- RenderData::update_instance_buffers: the step applied to every model. -/
def RenderData.update_instance_buffers (rd : RenderData) : RenderData :=
  { rd with models := rd.models.map fun m => m.update_instance_buffer_step.1 }

/-! ## Drawing (DrawModels::draw_models) -/

/-- The pass-scoped commands draw_models records, in order.  The instance
buffer binding notes whether the single-instance fallback slice was bound; a
draw records its index range, base vertex and instance range. -/
inductive PassCmd
  | set_instance_buffer (single_fallback : Bool)
  | set_bind_group (index : ℕ) (material_index : ℕ)
  | set_mesh_vertex_buffer
  | set_mesh_index_buffer
  | draw_indexed (index_start index_end : ℕ) (base_vertex : ℤ)
      (instance_start instance_end : ℕ)
deriving DecidableEq

/-- True exactly for draw commands. -/
def PassCmd.is_draw : PassCmd → Bool
  | .draw_indexed _ _ _ _ _ => true
  | _ => false

/-- The inner mesh loop of draw_models: bind the mesh material bind group
(indexing materials panics, modelled as none, when the material index is out
of bounds), bind the mesh buffers, and issue one indexed draw whose instance
range is 0..len for an assigned instance list and 0..1 otherwise. -/
def draw_mesh_cmds (materials_len : ℕ) (instance_range_end : ℕ) (mesh : Mesh) :
    Option (List PassCmd) :=
  if mesh.material_index < materials_len then
    some [.set_bind_group 0 mesh.material_index, .set_mesh_vertex_buffer,
          .set_mesh_index_buffer,
          .draw_indexed 0 mesh.indices_count 0 0 instance_range_end]
  else none

/-- Mapping draw_mesh_cmds over the meshes, flattening; a panic anywhere
aborts. -/
def draw_meshes (materials_len : ℕ) (instance_range_end : ℕ) :
    List Mesh → Option (List PassCmd)
  | [] => some []
  | mesh :: rest =>
      match draw_mesh_cmds materials_len instance_range_end mesh,
            draw_meshes materials_len instance_range_end rest with
      | some cs, some rs => some (cs ++ rs)
      | _, _ => none

/-- The per-model body of draw_models: bind the model instance buffer, or the
single-instance fallback slice when it has none, then run the mesh loop. -/
def draw_instanced_model (im : InstancedModel) : Option (List PassCmd) :=
  let instance_range_end :=
    match im.instances with
    | some insts => insts.length
    | none => 1
  match draw_meshes im.model.materials.length instance_range_end im.model.meshes with
  | some cs => some (PassCmd.set_instance_buffer im.instance_buffer.isNone :: cs)
  | none => none

/-- DrawModels::draw_models over all models of the render data. -/
def DrawModels.draw_models (rd : RenderData) : Option (List PassCmd) :=
  (rd.models.map draw_instanced_model).foldr
    (fun oc acc =>
      match oc, acc with
      | some cs, some rest => some (cs ++ rest)
      | _, _ => none)
    (some [])

/-! ## Camera (src/camera.rs), over ℝ -/

noncomputable section

/-- cgmath Vector3 of f32 components for the camera math, idealised over ℝ. -/
structure Vector3R where
  x : ℝ
  y : ℝ
  z : ℝ

/-- Componentwise vector addition (also Point3 plus Vector3). -/
def Vector3R.add (a b : Vector3R) : Vector3R := ⟨a.x + b.x, a.y + b.y, a.z + b.z⟩

/-- Componentwise vector subtraction (also Point3 minus Point3). -/
def Vector3R.sub (a b : Vector3R) : Vector3R := ⟨a.x - b.x, a.y - b.y, a.z - b.z⟩

/-- Scalar multiplication. -/
def Vector3R.scale (c : ℝ) (v : Vector3R) : Vector3R := ⟨c * v.x, c * v.y, c * v.z⟩

/-- cgmath dot product. -/
def Vector3R.dot (a b : Vector3R) : ℝ := a.x * b.x + a.y * b.y + a.z * b.z

/-- cgmath cross product. -/
def Vector3R.cross (a b : Vector3R) : Vector3R :=
  ⟨a.y * b.z - a.z * b.y, a.z * b.x - a.x * b.z, a.x * b.y - a.y * b.x⟩

/-- cgmath InnerSpace::magnitude: the Euclidean norm. -/
def Vector3R.magnitude (v : Vector3R) : ℝ := Real.sqrt (v.dot v)

/-- cgmath InnerSpace::normalize: the vector scaled by one over its
magnitude. -/
def Vector3R.normalize (v : Vector3R) : Vector3R :=
  v.scale (1 / v.magnitude)

/-- 4x4 real matrices for the camera transforms, indexed row then column. -/
abbrev Mat4R := Matrix (Fin 4) (Fin 4) ℝ

/-- src/camera.rs OPENGL_TO_WGPU_MATRIX: cgmath constructs it column-major
with columns (1,0,0,0), (0,1,0,0), (0,0,0.5,0), (0,0,0.5,1); these are its
rows. -/
def OPENGL_TO_WGPU_MATRIX : Mat4R :=
  !![1, 0, 0, 0;
     0, 1, 0, 0;
     0, 0, 1 / 2, 1 / 2;
     0, 0, 0, 1]

/-- cgmath Angle::cot, the reciprocal of the tangent. -/
def cot (x : ℝ) : ℝ := (Real.tan x)⁻¹

/-- cgmath conversion From Deg for Rad: degrees times pi over 180. -/
def degToRad (d : ℝ) : ℝ := d * (Real.pi / 180)

/-- cgmath perspective(fovy, aspect, near, far) for fovy already in radians
(the PerspectiveFov to Matrix4 conversion), rows transcribed from the
column-major constructor. -/
def perspective_fov (fovy aspect near far : ℝ) : Mat4R :=
  let f := cot (fovy / 2)
  !![f / aspect, 0, 0, 0;
     0, f, 0, 0;
     0, 0, (far + near) / (near - far), (2 * far * near) / (near - far);
     0, 0, -1, 0]

/-- cgmath Matrix4::look_at_rh(eye, center, up), rows transcribed from the
column-major constructor. -/
def look_at_rh (eye center up : Vector3R) : Mat4R :=
  let f := (center.sub eye).normalize
  let s := (f.cross up).normalize
  let u := s.cross f
  !![s.x, s.y, s.z, -(eye.dot s);
     u.x, u.y, u.z, -(eye.dot u);
     -f.x, -f.y, -f.z, eye.dot f;
     0, 0, 0, 1]

/-- src/camera.rs Camera.  The aspect field is the source's aspect-ratio
field. -/
structure Camera where
  position : Vector3R
  direction : Vector3R
  yaw : ℝ
  pitch : ℝ
  up : Vector3R
  aspect : ℝ
  fov : ℝ
  z_near : ℝ
  z_far : ℝ

/-- Camera::build_view_projection_matrix: the look-at view, the perspective
projection from the degree field of view, and the clip-space correction on the
left. -/
def Camera.build_view_projection_matrix (c : Camera) : Mat4R :=
  let view := look_at_rh c.position (c.position.add c.direction) c.up
  let projection := perspective_fov (degToRad c.fov) c.aspect c.z_near c.z_far
  OPENGL_TO_WGPU_MATRIX * projection * view

/-- f32::clamp(min, max): raise to min, then lower to max (min and max are in
order whenever this is reached). -/
def rust_clamp (x lo hi : ℝ) : ℝ :=
  if x < lo then lo else if x > hi then hi else x

/-- Camera::update_direction with the externally read mouse delta and elapsed
seconds passed in: a zero mouse delta returns early; otherwise yaw and pitch
integrate the scaled delta, pitch is clamped strictly inside plus-minus pi
over 2 with a 0.01 margin, and the direction vector is re-derived from yaw
and pitch by the spherical-to-Cartesian conversion. -/
def Camera.update_direction (mouse_diff : ℝ × ℝ) (dt : ℝ) (camera : Camera) :
    Camera :=
  if mouse_diff = (0, 0) then camera
  else
    let sensitivity : ℝ := 3 / 2
    let yaw := camera.yaw + mouse_diff.1 * sensitivity * dt
    let pitch_raw := camera.pitch + mouse_diff.2 * sensitivity * dt
    let offset : ℝ := 1 / 100
    let pitch := rust_clamp pitch_raw (-(Real.pi / 2) + offset) (Real.pi / 2 - offset)
    { camera with
      yaw := yaw
      pitch := pitch
      direction := Vector3R.normalize
        ⟨Real.cos yaw * Real.cos pitch, -Real.sin pitch,
         Real.sin yaw * Real.cos pitch⟩ }

/-- The lower pitch clamp bound of update_direction. -/
def pitch_lower : ℝ := -(Real.pi / 2) + 1 / 100

/-- The upper pitch clamp bound of update_direction. -/
def pitch_upper : ℝ := Real.pi / 2 - 1 / 100

end

/-! ## Concrete inputs and frame harnesses used by the claims -/

/-- Drive one InstancedModel through a sequence of per-frame instance counts:
each frame the instance list is replaced by that many default instances and
the buffer synchronisation step runs; the per-frame actions are collected. -/
def run_count_frames (start : InstancedModel) (counts : List ℕ) :
    InstancedModel × List BufferAction :=
  counts.foldl
    (fun acc n =>
      let withInsts :=
        { acc.1 with instances := some (List.replicate n ModelInstance.default) }
      let step := withInsts.update_instance_buffer_step
      (step.1, acc.2 ++ [step.2]))
    (start, [])

/-- A one-slot instance buffer. -/
def c1_example_buffer : GpuBuffer :=
  GpuBuffer.init [RawInstance.ofModelInstance ModelInstance.default]

/-- Two instances over a one-slot buffer: the next sync must reallocate. -/
def c1_example_model : InstancedModel :=
  ⟨⟨"m", [], []⟩, some [ModelInstance.default, ModelInstance.default],
   some c1_example_buffer⟩

/-- A mesh with three indices and material index 0. -/
def c2_mesh0 : Mesh := ⟨"mesh0", [], [0, 1, 2], 3, 0⟩

/-- A one-mesh one-material model. -/
def c2_model0 : Model := ⟨"m0", [c2_mesh0], [⟨"mat0", 0, none, 0⟩]⟩

/-- An InstancedModel whose instance list is Some of the empty vector. -/
def c2_empty_instances_model : InstancedModel := ⟨c2_model0, some [], none⟩

/-- An InstancedModel with no instance list assigned at all. -/
def c2_none_instances_model : InstancedModel := ⟨c2_model0, none, none⟩

/-- A tobj mesh whose material id 2 is out of range for a one-material file. -/
def c3_tobj_mesh : TobjMesh := ⟨[0, 0, 0], [0, 0], [0, 0, 0], [0, 0, 0], some 2⟩

/-- The tobj model wrapping c3_tobj_mesh. -/
def c3_tobj_model : TobjModel := ⟨"mesh0", c3_tobj_mesh⟩

/-- A single tobj material, so valid material ids are only 0. -/
def c3_tobj_mats : List TobjMaterial := [⟨"mat0", some ("tex.png")⟩]

/-- The model Model::load produces for c3_tobj_model and c3_tobj_mats: the
out-of-range material id 2 is passed through into material_index. -/
def c3_loaded_model : Model :=
  ⟨"model.obj", [⟨"mesh0", [⟨(0, 0, 0), (0, 0), (0, 0, 0)⟩], [0, 0, 0], 3, 2⟩],
   [⟨"mat0", 0, none, 0⟩]⟩

/-- The atlas state after that load. -/
def c3_loaded_atlas : TextureAtlas := ⟨[(("tex.png"), 0)], 1, 1⟩

/-- An in-range variant of the same input, used by the amended C3 theorem. -/
def c3_inrange_tobj_model : TobjModel := ⟨"mesh0", ⟨[0, 0, 0], [0, 0], [0, 0, 0], [0, 0, 0], some 0⟩⟩

/-- The model loaded from c3_inrange_tobj_model and c3_tobj_mats. -/
def c3_inrange_loaded_model : Model :=
  ⟨"model.obj", [⟨"mesh0", [⟨(0, 0, 0), (0, 0), (0, 0, 0)⟩], [0, 0, 0], 3, 0⟩],
   [⟨"mat0", 0, none, 0⟩]⟩

/-- The model loaded from c5_tobj_model with zero tobj materials: one
synthesized default material, mesh material index 0. -/
def c5_loaded_model : Model :=
  ⟨"model.obj", [⟨"mesh0", [⟨(0, 0, 0), (0, 0), (0, 0, 0)⟩], [0], 1, 0⟩],
   [⟨"default-material", 0, none, 0⟩]⟩

/-- The atlas after that load: default.png resident, one upload counted. -/
def c5_loaded_atlas : TextureAtlas := ⟨[(("default.png"), 0)], 1, 1⟩

/-- A tobj mesh with two full position and normal vertices but only one
texture-coordinate pair: the streams are inconsistent. -/
def c4_tobj_mesh : TobjMesh := ⟨[0, 0, 0, 1, 1, 1], [0, 0], [0, 0, 0, 1, 1, 1], [0, 1, 2], none⟩

/-- The tobj model wrapping c4_tobj_mesh. -/
def c4_tobj_model : TobjModel := ⟨"mesh0", c4_tobj_mesh⟩

/-- The model loaded from c4_tobj_model: one vertex survives although the
position stream holds two, because zip stops at the shortest stream. -/
def c4_loaded_model : Model :=
  ⟨"model.obj", [⟨"mesh0", [⟨(0, 0, 0), (0, 0), (0, 0, 0)⟩], [0, 1, 2], 3, 0⟩],
   [⟨"default-material", 0, none, 0⟩]⟩

/-- A well-formed single-vertex tobj model with no material id, loaded from a
file defining zero materials. -/
def c5_tobj_model : TobjModel := ⟨"mesh0", ⟨[0, 0, 0], [0, 0], [0, 0, 0], [0], none⟩⟩

/-- Repeated update_direction calls with a fixed mouse delta and elapsed
time. -/
noncomputable def cam_iter (dx dy dt : ℝ) (c : Camera) (n : ℕ) : Camera :=
  (Camera.update_direction (dx, dy) dt)^[n] c

/-- A concrete camera for the C8 witness. -/
noncomputable def c8_camera : Camera :=
  ⟨⟨0, 0, 0⟩, ⟨0, 0, -1⟩, 0, 0, ⟨0, 1, 0⟩, 1, 45, 1 / 10, 100⟩

/-- A model with no geometry. -/
def c9_model_a : Model := ⟨"cube", [], []⟩

/-- A model with the same name but different geometry. -/
def c9_model_b : Model := ⟨"cube", [⟨"mesh", [], [0], 1, 0⟩], []⟩

/-! ## Theorems -/

theorem GpuBuffer.capacity_init (data : List Mat4) :
    (GpuBuffer.init data).capacity = data.length := by
  simp [GpuBuffer.capacity, GpuBuffer.size, GpuBuffer.init, rawInstanceSize]

theorem GpuBuffer.capacity_eq_length (b : GpuBuffer) :
    b.capacity = b.contents.length := by
  simp [GpuBuffer.capacity, GpuBuffer.size, rawInstanceSize]

theorem raw_instance_default_eq_one :
    RawInstance.ofModelInstance ModelInstance.default = (1 : Mat4) := by
  show Matrix4.from_translation Vector3.zero * Matrix4.from_quaternion Quaternion.zero = 1
  ext i j
  fin_cases i <;> fin_cases j <;>
    simp [Matrix4.from_translation, Matrix4.from_quaternion, Vector3.zero,
      Quaternion.zero, Matrix.mul_apply, Fin.sum_univ_four, Matrix.one_apply,
      Matrix.vecHead, Matrix.vecTail]

/-- Claim C10: converting the default ModelInstance, whose position is the
zero vector and whose rotation is the all-zero quaternion (not a unit
quaternion), through the instance-to-raw-matrix conversion (translation matrix
times rotation matrix) yields exactly the 4x4 identity matrix, so the
single-default fallback buffer built by RenderData::new holds exactly one
identity transform. -/
theorem c10_default_instance_is_identity :
    ModelInstance.default.position = Vector3.zero
    ∧ ModelInstance.default.rotation = Quaternion.zero
    ∧ RawInstance.ofModelInstance ModelInstance.default = (1 : Mat4)
    ∧ RenderData.new.single_instance_buffer.contents = [(1 : Mat4)] := by
  refine ⟨rfl, rfl, raw_instance_default_eq_one, ?_⟩
  simp [RenderData.new, GpuBuffer.init, raw_instance_default_eq_one]

/-- Claim C1: for a model with a non-empty instance list and an existing
buffer, the sync step reallocates exactly when the new instance count exceeds
the buffer capacity in instance slots, creating a buffer sized exactly to the
new count with fresh data; otherwise it writes the new data in place at offset
zero, leaving the capacity unchanged; capacity never shrinks; and over the
frame count sequence [3, 3, 10, 10, 2] the buffer is allocated exactly twice
(creation at 3 and growth to 10) and in-place updated on the other frames. -/
theorem c1_grow_only_buffer_policy (model : InstancedModel)
    (insts : List ModelInstance) (buf : GpuBuffer)
    (hinst : model.instances = some insts) (hne : insts ≠ [])
    (hbuf : model.instance_buffer = some buf) :
    ((model.update_instance_buffer_step.2 = BufferAction.resized
        ↔ buf.capacity < insts.length)
      ∧ (buf.capacity < insts.length →
          model.update_instance_buffer_step.1.instance_buffer
              = some (GpuBuffer.init (insts.map RawInstance.ofModelInstance))
            ∧ model.update_instance_buffer_step.1.buffer_capacity = insts.length)
      ∧ (insts.length ≤ buf.capacity →
          model.update_instance_buffer_step.2 = BufferAction.wrote_in_place
            ∧ model.update_instance_buffer_step.1.instance_buffer
                = some (buf.write_zero (insts.map RawInstance.ofModelInstance))
            ∧ (buf.write_zero (insts.map RawInstance.ofModelInstance)).contents.take
                  insts.length = insts.map RawInstance.ofModelInstance
            ∧ model.update_instance_buffer_step.1.buffer_capacity = buf.capacity)
      ∧ model.buffer_capacity ≤ model.update_instance_buffer_step.1.buffer_capacity)
    ∧ (run_count_frames (InstancedModel.ofModel ⟨"model", [], []⟩) [3, 3, 10, 10, 2]).2
        = [BufferAction.created, BufferAction.wrote_in_place, BufferAction.resized,
           BufferAction.wrote_in_place, BufferAction.wrote_in_place]
    ∧ ((run_count_frames (InstancedModel.ofModel ⟨"model", [], []⟩)
          [3, 3, 10, 10, 2]).2.filter BufferAction.is_alloc).length = 2 := by
  refine ⟨?_, by rfl, by rfl⟩
  have hcap : buf.size / rawInstanceSize = buf.capacity := rfl
  by_cases hlt : buf.capacity < insts.length
  · have hstep : model.update_instance_buffer_step
        = (⟨model.model, model.instances,
            some (GpuBuffer.init (insts.map RawInstance.ofModelInstance))⟩,
           BufferAction.resized) := by
      simp [InstancedModel.update_instance_buffer_step, hinst, hbuf, hcap, hlt]
    refine ⟨by simp [hstep, hlt], fun _ => ⟨by simp [hstep], ?_⟩, fun hge => absurd hlt (by omega), ?_⟩
    · simp [hstep, InstancedModel.buffer_capacity, GpuBuffer.capacity_init]
    · simp only [hstep, InstancedModel.buffer_capacity, hbuf, GpuBuffer.capacity_init]
      have := List.length_map insts RawInstance.ofModelInstance
      omega
  · have hge : insts.length ≤ buf.capacity := by omega
    have hstep : model.update_instance_buffer_step
        = (⟨model.model, model.instances,
            some (buf.write_zero (insts.map RawInstance.ofModelInstance))⟩,
           BufferAction.wrote_in_place) := by
      simp [InstancedModel.update_instance_buffer_step, hinst, hbuf, hcap,
        Nat.not_lt.mpr hge]
    have hlen : (insts.map RawInstance.ofModelInstance).length = insts.length :=
      List.length_map insts RawInstance.ofModelInstance
    have hcaplen : insts.length ≤ buf.contents.length := by
      have := GpuBuffer.capacity_eq_length buf
      omega
    have hwlen : (buf.write_zero (insts.map RawInstance.ofModelInstance)).contents.length
        = buf.contents.length := by
      simp [GpuBuffer.write_zero, hlen]
      omega
    refine ⟨by simp [hstep, hlt], fun h => absurd h hlt, fun _ => ⟨by simp [hstep], by simp [hstep], ?_, ?_⟩, ?_⟩
    · rw [GpuBuffer.write_zero]
      simpa [hlen] using List.take_left (insts.map RawInstance.ofModelInstance)
        (buf.contents.drop insts.length)
    · simp only [hstep, InstancedModel.buffer_capacity]
      rw [GpuBuffer.capacity_eq_length, GpuBuffer.capacity_eq_length, hwlen]
    · simp only [hstep, InstancedModel.buffer_capacity, hbuf]
      rw [GpuBuffer.capacity_eq_length, GpuBuffer.capacity_eq_length, hwlen]

theorem c1_witness :
    c1_example_model.instances
        = some [ModelInstance.default, ModelInstance.default]
    ∧ ([ModelInstance.default, ModelInstance.default] : List ModelInstance) ≠ []
    ∧ c1_example_model.instance_buffer = some c1_example_buffer
    ∧ (c1_example_model.update_instance_buffer_step.2 = BufferAction.resized
        ↔ c1_example_buffer.capacity < 2) :=
  ⟨rfl, by decide, rfl, by
    have h := (c1_grow_only_buffer_policy c1_example_model
      [ModelInstance.default, ModelInstance.default] c1_example_buffer rfl
      (by decide) rfl).1.1
    simpa using h⟩

theorem draw_meshes_valid (len k : ℕ) (meshes : List Mesh)
    (h : ∀ mesh ∈ meshes, mesh.material_index < len) :
    ∃ cmds, draw_meshes len k meshes = some cmds
      ∧ (cmds.filter PassCmd.is_draw).length = meshes.length
      ∧ ∀ c ∈ cmds, PassCmd.is_draw c = true →
          ∃ n, c = PassCmd.draw_indexed 0 n 0 0 k := by
  induction meshes with
  | nil => exact ⟨[], rfl, rfl, by simp⟩
  | cons mesh rest ih =>
      obtain ⟨cmds, hc, hlen, hall⟩ := ih (fun m hm => h m (List.mem_cons_of_mem _ hm))
      have hm : mesh.material_index < len := h mesh (List.mem_cons_self _ _)
      refine ⟨PassCmd.set_bind_group 0 mesh.material_index :: PassCmd.set_mesh_vertex_buffer
          :: PassCmd.set_mesh_index_buffer
          :: PassCmd.draw_indexed 0 mesh.indices_count 0 0 k :: cmds, ?_, ?_, ?_⟩
      · simp [draw_meshes, draw_mesh_cmds, hm, hc]
      · simp [List.filter, PassCmd.is_draw, hlen]
      · intro c hcmem hdraw
        rcases hcmem with _ | ⟨_, hcmem⟩
        · simp [PassCmd.is_draw] at hdraw
        · rcases hcmem with _ | ⟨_, hcmem⟩
          · simp [PassCmd.is_draw] at hdraw
          · rcases hcmem with _ | ⟨_, hcmem⟩
            · simp [PassCmd.is_draw] at hdraw
            · rcases hcmem with _ | ⟨_, hcmem⟩
              · exact ⟨mesh.indices_count, rfl⟩
              · exact hall c hcmem hdraw

/-- Claim C2 (amended): only a model whose instance list is None is left
untouched by the per-frame synchronisation; for such a model with no buffer,
drawing binds the single-default fallback slice and issues, per mesh, exactly
one indexed draw with instance range 0..1 — never zero draws.  (A model whose
list is Some of the empty vector is NOT skipped: a zero-sized buffer is
created and its meshes are drawn with instance range 0..0, see the
counterexample.) -/
theorem c2_none_fallback_draw (m : InstancedModel)
    (hinst : m.instances = none) (hbuf : m.instance_buffer = none)
    (hmat : ∀ mesh ∈ m.model.meshes, mesh.material_index < m.model.materials.length) :
    m.update_instance_buffer_step = (m, BufferAction.skipped)
    ∧ ∃ cmds, draw_instanced_model m = some (PassCmd.set_instance_buffer true :: cmds)
        ∧ (cmds.filter PassCmd.is_draw).length = m.model.meshes.length
        ∧ ∀ c ∈ cmds, PassCmd.is_draw c = true →
            ∃ n, c = PassCmd.draw_indexed 0 n 0 0 1 := by
  constructor
  · simp [InstancedModel.update_instance_buffer_step, hinst]
  · obtain ⟨cmds, hc, hlen, hall⟩ :=
      draw_meshes_valid m.model.materials.length 1 m.model.meshes hmat
    refine ⟨cmds, ?_, hlen, hall⟩
    simp [draw_instanced_model, hinst, hbuf, hc]

theorem c2_witness :
    c2_none_instances_model.instances = none
    ∧ c2_none_instances_model.instance_buffer = none
    ∧ (∀ mesh ∈ c2_none_instances_model.model.meshes,
        mesh.material_index < c2_none_instances_model.model.materials.length)
    ∧ ∃ cmds, draw_instanced_model c2_none_instances_model
          = some (PassCmd.set_instance_buffer true :: cmds)
        ∧ (cmds.filter PassCmd.is_draw).length
            = c2_none_instances_model.model.meshes.length
        ∧ ∀ c ∈ cmds, PassCmd.is_draw c = true →
            ∃ n, c = PassCmd.draw_indexed 0 n 0 0 1 :=
  ⟨rfl, rfl, by decide,
   (c2_none_fallback_draw c2_none_instances_model rfl rfl (by decide)).2⟩

theorem c2_counterexample :
    c2_empty_instances_model.instances = some []
    ∧ c2_empty_instances_model.update_instance_buffer_step.2 = BufferAction.created
    ∧ c2_empty_instances_model.update_instance_buffer_step.1.instance_buffer
        = some (GpuBuffer.init [])
    ∧ draw_instanced_model c2_empty_instances_model.update_instance_buffer_step.1
        = some [PassCmd.set_instance_buffer false,
                PassCmd.set_bind_group 0 0, PassCmd.set_mesh_vertex_buffer,
                PassCmd.set_mesh_index_buffer, PassCmd.draw_indexed 0 3 0 0 0] :=
  ⟨rfl, rfl, rfl, rfl⟩

/-- Claim C9: for all Models a and b, a == b holds exactly when their names
are equal, and equal names give equal hashes under any hasher; equality and
hashing ignore meshes and materials entirely, so two Models with the same name
compare equal even with different geometry. -/
theorem c9_model_equality_by_name (a b : Model) :
    (Model.beq a b = true ↔ a.name = b.name)
    ∧ (∀ hasher : String → ℕ, a.name = b.name →
        Model.hashWith hasher a = Model.hashWith hasher b) := by
  constructor
  · simp [Model.beq]
  · intro hasher h
    simp [Model.hashWith, h]

theorem c9_witness :
    c9_model_a.name = c9_model_b.name
    ∧ c9_model_a.meshes ≠ c9_model_b.meshes
    ∧ Model.beq c9_model_a c9_model_b = true
    ∧ Model.hashWith String.length c9_model_a = Model.hashWith String.length c9_model_b :=
  ⟨rfl, by decide,
   (c9_model_equality_by_name c9_model_a c9_model_b).1.mpr rfl,
   (c9_model_equality_by_name c9_model_a c9_model_b).2 String.length rfl⟩

/-- Claim C7: for every Camera state, build_view_projection_matrix is exactly
the product of the clip-space correction (leftmost, applied once), the
perspective projection and the look-at view; moreover the correction matrix is
exactly the map leaving x, y and w untouched while sending clip z to
z/2 + w/2, which carries the depth range [-w, w] to [0, w]. -/
theorem c7_view_projection_product (c : Camera) :
    Camera.build_view_projection_matrix c =
      OPENGL_TO_WGPU_MATRIX
        * perspective_fov (degToRad c.fov) c.aspect c.z_near c.z_far
        * look_at_rh c.position (c.position.add c.direction) c.up
    ∧ ∀ v : Fin 4 → ℝ,
        OPENGL_TO_WGPU_MATRIX.mulVec v = ![v 0, v 1, v 2 / 2 + v 3 / 2, v 3] := by
  refine ⟨rfl, fun v => ?_⟩
  funext i
  fin_cases i <;>
    simp [OPENGL_TO_WGPU_MATRIX, Matrix.mulVec, Matrix.dotProduct, Fin.sum_univ_four,
      Matrix.vecHead, Matrix.vecTail, Fin.succ] <;> ring

/-- Claim C6: a second get for the same path returns the same resident handle
with the cache (and its load counter) unchanged; a cache hit never decodes or
uploads; a miss that succeeds uploads exactly once; a failed load propagates
the error and leaves the cache exactly as it was, with no partial entry for
the path. -/
theorem c6_texture_atlas_get_cached (disk_ok : String → Bool)
    (atlas : TextureAtlas) (p : String) :
    (∀ t atlas2, TextureAtlas.get disk_ok atlas p = (.ok t, atlas2) →
      TextureAtlas.get disk_ok atlas2 p = (.ok t, atlas2))
    ∧ (∀ t atlas2, TextureAtlas.get disk_ok atlas p = (.ok t, atlas2) →
        atlas.entries.lookup p = none →
        atlas2.load_count = atlas.load_count + 1)
    ∧ (∀ t, atlas.entries.lookup p = some t →
        TextureAtlas.get disk_ok atlas p = (.ok t, atlas))
    ∧ (∀ e atlas2, TextureAtlas.get disk_ok atlas p = (.error e, atlas2) →
        atlas2 = atlas ∧ atlas.entries.lookup p = none) := by
  refine ⟨?_, ?_, ?_, ?_⟩
  · intro t atlas2 h
    rcases hl : atlas.entries.lookup p with _ | id
    · by_cases hd : disk_ok p
      · simp only [TextureAtlas.get, hl, hd, if_true, Prod.mk.injEq, Except.ok.injEq] at h
        obtain ⟨rfl, rfl⟩ := h
        simp [TextureAtlas.get, List.lookup]
      · simp [TextureAtlas.get, hl, hd] at h
    · simp only [TextureAtlas.get, hl, Prod.mk.injEq, Except.ok.injEq] at h
      obtain ⟨rfl, rfl⟩ := h
      simp [TextureAtlas.get, hl]
  · intro t atlas2 h hl
    by_cases hd : disk_ok p
    · simp only [TextureAtlas.get, hl, hd, if_true, Prod.mk.injEq, Except.ok.injEq] at h
      obtain ⟨rfl, rfl⟩ := h
      rfl
    · simp [TextureAtlas.get, hl, hd] at h
  · intro t hl
    simp [TextureAtlas.get, hl]
  · intro e atlas2 h
    rcases hl : atlas.entries.lookup p with _ | id
    · by_cases hd : disk_ok p
      · simp [TextureAtlas.get, hl, hd] at h
      · simp only [TextureAtlas.get, hl, hd, Bool.false_eq_true, if_false, Prod.mk.injEq,
          Except.error.injEq] at h
        exact ⟨h.2.symm, rfl⟩
    · simp [TextureAtlas.get, hl] at h

theorem c6_witness :
    TextureAtlas.get (fun _ => true) TextureAtlas.new ("a.png")
        = (.ok 0, ⟨[(("a.png"), 0)], 1, 1⟩)
    ∧ TextureAtlas.get (fun _ => true) ⟨[(("a.png"), 0)], 1, 1⟩ ("a.png")
        = (.ok 0, ⟨[(("a.png"), 0)], 1, 1⟩) :=
  ⟨rfl,
   (c6_texture_atlas_get_cached (fun _ => true) TextureAtlas.new ("a.png")).1 0
     ⟨[(("a.png"), 0)], 1, 1⟩ rfl⟩

theorem TextureAtlas.lookup_after_get (dok : String → Bool) (atlas : TextureAtlas)
    (p : String) (t : ℕ) (atlas2 : TextureAtlas)
    (h : TextureAtlas.get dok atlas p = (.ok t, atlas2)) :
    atlas2.entries.lookup p = some t := by
  rcases hl : atlas.entries.lookup p with _ | id
  · by_cases hd : dok p
    · simp only [TextureAtlas.get, hl, hd, if_true, Prod.mk.injEq, Except.ok.injEq] at h
      obtain ⟨rfl, rfl⟩ := h
      simp [List.lookup]
    · simp [TextureAtlas.get, hl, hd] at h
  · simp only [TextureAtlas.get, hl, Prod.mk.injEq, Except.ok.injEq] at h
    obtain ⟨rfl, rfl⟩ := h
    exact hl

theorem load_materials_length (dok : String → Bool) :
    ∀ (mats : List TobjMaterial) (atlas : TextureAtlas) (ms : List Material)
      (atlas2 : TextureAtlas),
      load_materials dok atlas mats = .ok (ms, atlas2) → ms.length = mats.length := by
  intro mats
  induction mats with
  | nil =>
      intro atlas ms atlas2 h
      simp only [load_materials, Except.ok.injEq, Prod.mk.injEq] at h
      simp [← h.1]
  | cons mat rest ih =>
      intro atlas ms atlas2 h
      simp only [load_materials] at h
      split at h
      · simp at h
      · split at h
        · simp at h
        · rename_i texId atlas1 hget mats atlasx hrec
          simp only [Except.ok.injEq, Prod.mk.injEq] at h
          obtain ⟨h1, h2⟩ := h
          rw [← h1]
          simpa using ih _ _ _ hrec

theorem load_meshes_material_src :
    ∀ (tms : List TobjModel) (ms : List Mesh), load_meshes tms = .ok ms →
      ∀ mesh ∈ ms, ∃ tm ∈ tms, mesh.material_index = tm.mesh.material_id.getD 0 := by
  intro tms
  induction tms with
  | nil =>
      intro ms h mesh hm
      simp only [load_meshes, Except.ok.injEq] at h
      rw [← h] at hm
      simp at hm
  | cons tm rest ih =>
      intro ms h mesh hm
      simp only [load_meshes] at h
      split at h
      · simp at h
      · split at h
        · simp at h
        · rename_i verts hverts ms2 hrec
          simp only [Except.ok.injEq] at h
          rw [← h] at hm
          rcases hm with _ | ⟨_, hm⟩
          · exact ⟨tm, List.mem_cons_self _ _, rfl⟩
          · obtain ⟨tm2, htm2, heq⟩ := ih ms2 hrec mesh hm
            exact ⟨tm2, List.mem_cons_of_mem _ htm2, heq⟩

theorem Model.load_ok_inversion (path : String) (dok : String → Bool)
    (tms : List TobjModel) (tmats : List TobjMaterial) (atlas : TextureAtlas)
    (m : Model) (atlas2 : TextureAtlas)
    (hload : Model.load path dok tms (.ok tmats) atlas = .ok (m, atlas2)) :
    m.name = path
    ∧ load_meshes tms = .ok m.meshes
    ∧ ((tmats.isEmpty = true
        ∧ ∃ texId, TextureAtlas.get dok atlas ("default.png") = (.ok texId, atlas2)
          ∧ m.materials = [⟨"default-material", texId, none, texId⟩])
      ∨ (tmats.isEmpty = false
        ∧ load_materials dok atlas tmats = .ok (m.materials, atlas2))) := by
  by_cases hemp : tmats.isEmpty
  · simp only [Model.load, hemp, if_true] at hload
    split at hload
    · simp at hload
    · rename_i mats atlasy hstep
      split at hstep
      · simp at hstep
      · rename_i texId atlas1 hget
        simp only [Except.ok.injEq, Prod.mk.injEq] at hstep
        obtain ⟨rfl, rfl⟩ := hstep
        split at hload
        · simp at hload
        · rename_i ms hms
          simp only [Except.ok.injEq, Prod.mk.injEq] at hload
          obtain ⟨rfl, rfl⟩ := hload
          exact ⟨rfl, hms, Or.inl ⟨hemp, texId, hget, rfl⟩⟩
  · simp only [Model.load, hemp, if_false] at hload
    split at hload
    · simp at hload
    · rename_i mats2 atlasx hmats
      split at hload
      · simp at hload
      · rename_i ms hms
        simp only [Except.ok.injEq, Prod.mk.injEq] at hload
        obtain ⟨rfl, rfl⟩ := hload
        exact ⟨rfl, hms, Or.inr ⟨Bool.eq_false_iff.mpr hemp, hmats⟩⟩

/-- Claim C3 (amended): Model::load sets material_index to
material_id.unwrap_or(0): an absent id defaults to 0, but an explicitly given
id is passed through without clamping.  The invariant
material_index < materials.len() therefore holds for every loaded model in
which each given id is within the loaded material count (which the OBJ parser
guarantees, since it produces ids as indexes into the material list it
returns); an out-of-range id survives into the Model and drawing it panics,
see the counterexample. -/
theorem c3_material_index_bound (path : String) (dok : String → Bool)
    (tms : List TobjModel) (tmats : List TobjMaterial) (atlas : TextureAtlas)
    (m : Model) (atlas2 : TextureAtlas)
    (hload : Model.load path dok tms (.ok tmats) atlas = .ok (m, atlas2))
    (hids : ∀ tm ∈ tms, ∀ k, tm.mesh.material_id = some k →
        k < (if tmats.isEmpty then 1 else tmats.length)) :
    ∀ mesh ∈ m.meshes, mesh.material_index < m.materials.length := by
  obtain ⟨hname, hmeshes, hmats⟩ :=
    Model.load_ok_inversion path dok tms tmats atlas m atlas2 hload
  have hlen : m.materials.length = if tmats.isEmpty then 1 else tmats.length := by
    rcases hmats with ⟨hemp, texId, hget, hmatseq⟩ | ⟨hemp, hlm⟩
    · simp [hmatseq, hemp]
    · simp [hemp, load_materials_length dok tmats atlas m.materials atlas2 hlm]
  have hpos : 0 < m.materials.length := by
    rcases hmats with ⟨hemp, texId, hget, hmatseq⟩ | ⟨hemp, hlm⟩
    · simp [hmatseq]
    · rw [load_materials_length dok tmats atlas m.materials atlas2 hlm]
      have : tmats ≠ [] := by
        intro hnil
        rw [hnil] at hemp
        simp at hemp
      exact List.length_pos.mpr this
  intro mesh hm
  obtain ⟨tm, htm, heq⟩ := load_meshes_material_src tms m.meshes hmeshes mesh hm
  rcases hid : tm.mesh.material_id with _ | k
  · rw [heq, hid]
    simpa using hpos
  · have hk := hids tm htm k hid
    rw [heq, hid, Option.getD_some, hlen]
    exact hk

theorem c3_witness :
    Model.load ("model.obj") (fun _ => true) [c3_inrange_tobj_model]
        (.ok c3_tobj_mats) TextureAtlas.new
      = .ok (c3_inrange_loaded_model, c3_loaded_atlas)
    ∧ ∀ mesh ∈ c3_inrange_loaded_model.meshes,
        mesh.material_index < c3_inrange_loaded_model.materials.length :=
  ⟨rfl,
   c3_material_index_bound ("model.obj") (fun _ => true) [c3_inrange_tobj_model]
     c3_tobj_mats TextureAtlas.new c3_inrange_loaded_model c3_loaded_atlas rfl
     (by
       intro tm htm k hk
       have h := List.mem_singleton.mp htm
       subst h
       simp [c3_inrange_tobj_model, c3_tobj_mats] at hk ⊢
       omega)⟩

theorem c3_counterexample :
    Model.load ("model.obj") (fun _ => true) [c3_tobj_model] (.ok c3_tobj_mats)
        TextureAtlas.new = .ok (c3_loaded_model, c3_loaded_atlas)
    ∧ c3_loaded_model.materials.length = 1
    ∧ (∃ mesh ∈ c3_loaded_model.meshes,
        c3_loaded_model.materials.length ≤ mesh.material_index)
    ∧ DrawModels.draw_models ⟨[⟨c3_loaded_model, none, none⟩], GpuBuffer.init []⟩
        = none :=
  ⟨rfl, rfl, by decide, rfl⟩

/-- Claim C5: for every Model loaded from a file defining zero materials — so
tobj reports an empty material list and, because tobj produces material ids
only as indexes into that list, no mesh carries an id — Model::load
synthesizes exactly one default Material, named default-material and
referencing the resident default.png fallback texture, and every Mesh has
material index 0. -/
theorem c5_default_material_synthesized (path : String) (dok : String → Bool)
    (tms : List TobjModel) (atlas : TextureAtlas) (m : Model) (atlas2 : TextureAtlas)
    (hids : ∀ tm ∈ tms, tm.mesh.material_id = none)
    (hload : Model.load path dok tms (.ok []) atlas = .ok (m, atlas2)) :
    m.materials.length = 1
    ∧ (∀ mat ∈ m.materials, mat.name = "default-material")
    ∧ (∃ texId, atlas2.entries.lookup ("default.png") = some texId
        ∧ ∀ mat ∈ m.materials, mat.diffuse = texId)
    ∧ ∀ mesh ∈ m.meshes, mesh.material_index = 0 := by
  obtain ⟨hname, hmeshes, hmats⟩ :=
    Model.load_ok_inversion path dok tms [] atlas m atlas2 hload
  rcases hmats with ⟨hemp, texId, hget, hmatseq⟩ | ⟨hemp, hlm⟩
  · refine ⟨by simp [hmatseq], by simp [hmatseq],
      ⟨texId, TextureAtlas.lookup_after_get dok atlas _ texId atlas2 hget,
       by simp [hmatseq]⟩, ?_⟩
    intro mesh hm
    obtain ⟨tm, htm, heq⟩ := load_meshes_material_src tms m.meshes hmeshes mesh hm
    rw [heq, hids tm htm]
    rfl
  · simp at hemp

theorem c5_witness :
    Model.load ("model.obj") (fun _ => true) [c5_tobj_model] (.ok []) TextureAtlas.new
      = .ok (c5_loaded_model, c5_loaded_atlas)
    ∧ c5_loaded_model.materials.length = 1
    ∧ (∀ mat ∈ c5_loaded_model.materials, mat.name = "default-material")
    ∧ ∀ mesh ∈ c5_loaded_model.meshes, mesh.material_index = 0 :=
  ⟨rfl,
   (c5_default_material_synthesized ("model.obj") (fun _ => true) [c5_tobj_model]
     TextureAtlas.new c5_loaded_model c5_loaded_atlas (by decide) rfl).1,
   (c5_default_material_synthesized ("model.obj") (fun _ => true) [c5_tobj_model]
     TextureAtlas.new c5_loaded_model c5_loaded_atlas (by decide) rfl).2.1,
   (c5_default_material_synthesized ("model.obj") (fun _ => true) [c5_tobj_model]
     TextureAtlas.new c5_loaded_model c5_loaded_atlas (by decide) rfl).2.2.2⟩

theorem exists_three_cons (P : List ℚ) (m : ℕ) (h : P.length = m + 3) :
    ∃ a b c P2, P = a :: b :: c :: P2 ∧ P2.length = m := by
  rcases P with _ | ⟨a, P⟩
  · simp only [List.length_nil] at h
    omega
  rcases P with _ | ⟨b, P⟩
  · simp only [List.length_cons, List.length_nil] at h
    omega
  rcases P with _ | ⟨c, P⟩
  · simp only [List.length_cons, List.length_nil] at h
    omega
  refine ⟨a, b, c, P, rfl, ?_⟩
  simp only [List.length_cons] at h
  omega

theorem exists_two_cons (T : List ℚ) (m : ℕ) (h : T.length = m + 2) :
    ∃ a b T2, T = a :: b :: T2 ∧ T2.length = m := by
  rcases T with _ | ⟨a, T⟩
  · simp only [List.length_nil] at h
    omega
  rcases T with _ | ⟨b, T⟩
  · simp only [List.length_cons, List.length_nil] at h
    omega
  refine ⟨a, b, T, rfl, ?_⟩
  simp only [List.length_cons] at h
  omega

theorem chunks3_cons (a b c : ℚ) (l : List ℚ) :
    chunks3 (a :: b :: c :: l) = [a, b, c] :: chunks3 l := rfl

theorem chunks2_cons (a b : ℚ) (l : List ℚ) :
    chunks2 (a :: b :: l) = [a, b] :: chunks2 l := rfl

/-- Claim C4 (amended): vertex assembly raises no error on inconsistent
per-vertex counts — no MalformedGeometryError exists anywhere in the code.
The zip over the chunked streams stops at the shortest iterator, so for
component streams holding p, t and n complete vertices the assembly silently
succeeds with exactly min(p, t, n) vertices, fewer than the position stream
implies whenever t or n is smaller than p. -/
theorem c4_vertex_zip_truncates :
    ∀ (p t n : ℕ) (P T N : List ℚ), P.length = 3 * p → T.length = 2 * t →
      N.length = 3 * n →
      ∃ vs, assemble_vertices P T N = some vs ∧ vs.length = min p (min t n) := by
  intro p
  induction p with
  | zero =>
      intro t n P T N hP hT hN
      have hPnil : P = [] := List.eq_nil_of_length_eq_zero (by omega)
      subst hPnil
      exact ⟨[], by simp [assemble_vertices, chunks3, assemble_all], by simp⟩
  | succ p ih =>
      intro t n P T N hP hT hN
      rcases t with _ | t
      · have hTnil : T = [] := List.eq_nil_of_length_eq_zero (by omega)
        subst hTnil
        exact ⟨[], by simp [assemble_vertices, chunks2, assemble_all], by simp⟩
      · rcases n with _ | n
        · have hNnil : N = [] := List.eq_nil_of_length_eq_zero (by omega)
          subst hNnil
          exact ⟨[], by simp [assemble_vertices, chunks3, assemble_all], by simp⟩
        · obtain ⟨p0, p1, p2, P2, rfl, hP2⟩ := exists_three_cons P (3 * p) (by omega)
          obtain ⟨t0, t1, T2, rfl, hT2⟩ := exists_two_cons T (2 * t) (by omega)
          obtain ⟨n0, n1, n2, N2, rfl, hN2⟩ := exists_three_cons N (3 * n) (by omega)
          obtain ⟨vs, hvs, hlen⟩ := ih t n P2 T2 N2 hP2 hT2 hN2
          refine ⟨⟨(p0, p1, p2), (t0, t1), (n0, n1, n2)⟩ :: vs, ?_, ?_⟩
          · simp only [assemble_vertices] at hvs ⊢
            rw [chunks3_cons, chunks2_cons, chunks3_cons, List.zip_cons_cons,
              List.zip_cons_cons]
            simp only [assemble_all, hvs]
            rfl
          · simp only [List.length_cons, hlen]
            omega

theorem c4_witness :
    ([0, 0, 0, 1, 1, 1] : List ℚ).length = 3 * 2
    ∧ ([0, 0] : List ℚ).length = 2 * 1
    ∧ ([0, 0, 0, 1, 1, 1] : List ℚ).length = 3 * 2
    ∧ ∃ vs, assemble_vertices [0, 0, 0, 1, 1, 1] [0, 0] [0, 0, 0, 1, 1, 1] = some vs
        ∧ vs.length = min 2 (min 1 2) :=
  ⟨rfl, rfl, rfl, c4_vertex_zip_truncates 2 1 2 _ _ _ rfl rfl rfl⟩

theorem c4_counterexample :
    Model.load ("model.obj") (fun _ => true) [c4_tobj_model] (.ok []) TextureAtlas.new
      = .ok (c4_loaded_model, c5_loaded_atlas)
    ∧ c4_tobj_mesh.positions.length = 3 * 2
    ∧ c4_tobj_mesh.texcoords.length = 2 * 1
    ∧ c4_loaded_model.meshes.map (fun mesh => mesh.vertex_buffer.length) = [1] :=
  ⟨rfl, rfl, rfl, rfl⟩

theorem pitch_lower_le_upper : pitch_lower ≤ pitch_upper := by
  simp only [pitch_lower, pitch_upper]
  nlinarith [Real.pi_gt_three]

theorem rust_clamp_mem (x lo hi : ℝ) (h : lo ≤ hi) :
    lo ≤ rust_clamp x lo hi ∧ rust_clamp x lo hi ≤ hi := by
  unfold rust_clamp
  split_ifs with h1 h2
  · exact ⟨le_refl lo, h⟩
  · exact ⟨h, le_refl hi⟩
  · exact ⟨by linarith, by linarith⟩

theorem rust_clamp_eq_min (x lo hi : ℝ) (hx : lo ≤ x) :
    rust_clamp x lo hi = min hi x := by
  unfold rust_clamp
  split_ifs with h1 h2
  · linarith
  · exact (min_eq_left (by linarith)).symm
  · exact (min_eq_right (by linarith)).symm

theorem min_shift_right (ub a s : ℝ) (hs : 0 ≤ s) :
    min ub (min ub a + s) = min ub (a + s) := by
  rcases le_total a ub with h | h
  · rw [min_eq_right h]
  · rw [min_eq_left h, min_eq_left (by linarith), min_eq_left (by linarith)]

theorem update_direction_pitch (c : Camera) (dx dy dt : ℝ)
    (hdiff : ((dx, dy) : ℝ × ℝ) ≠ (0, 0)) :
    (Camera.update_direction (dx, dy) dt c).pitch
      = rust_clamp (c.pitch + dy * (3 / 2) * dt) pitch_lower pitch_upper := by
  have hdiff2 : ¬(dx = 0 ∧ dy = 0) := by
    intro h
    exact hdiff (by simp [h.1, h.2])
  simp [Camera.update_direction, hdiff2, pitch_lower, pitch_upper]

theorem update_direction_spherical (c : Camera) (dx dy dt : ℝ)
    (hdiff : ((dx, dy) : ℝ × ℝ) ≠ (0, 0)) :
    (Camera.update_direction (dx, dy) dt c).direction
      = Vector3R.normalize
          ⟨Real.cos (Camera.update_direction (dx, dy) dt c).yaw
              * Real.cos (Camera.update_direction (dx, dy) dt c).pitch,
           -Real.sin (Camera.update_direction (dx, dy) dt c).pitch,
           Real.sin (Camera.update_direction (dx, dy) dt c).yaw
              * Real.cos (Camera.update_direction (dx, dy) dt c).pitch⟩ := by
  have hdiff2 : ¬(dx = 0 ∧ dy = 0) := by
    intro h
    exact hdiff (by simp [h.1, h.2])
  simp [Camera.update_direction, hdiff2]

theorem cam_iter_succ (dx dy dt : ℝ) (c : Camera) (n : ℕ) :
    cam_iter dx dy dt c (n + 1)
      = Camera.update_direction (dx, dy) dt (cam_iter dx dy dt c n) := by
  simp only [cam_iter, Function.iterate_succ_apply']

/-- Claim C8: for every Camera state and constant mouse delta whose vertical
component integrates to a positive pitch step, the pitch after every call of
update_direction lies in the closed interval from -pi/2 + epsilon to
pi/2 - epsilon (epsilon = 0.01), follows the closed form
min(upper, first-pitch + (n-1) * step) — so it increases monotonically toward
the upper bound, never exceeds it, and reaches it after finitely many calls —
and after every call the direction vector is re-derived from yaw and pitch by
the spherical-to-Cartesian conversion. -/
theorem c8_pitch_clamp_convergence (c : Camera) (dx dy dt : ℝ)
    (hstep : 0 < dy * (3 / 2) * dt) :
    (∀ n : ℕ, 1 ≤ n →
      pitch_lower ≤ (cam_iter dx dy dt c n).pitch
      ∧ (cam_iter dx dy dt c n).pitch ≤ pitch_upper
      ∧ (cam_iter dx dy dt c n).pitch
          = min pitch_upper
              ((cam_iter dx dy dt c 1).pitch + ((n - 1 : ℕ) : ℝ) * (dy * (3 / 2) * dt))
      ∧ (cam_iter dx dy dt c n).direction
          = Vector3R.normalize
              ⟨Real.cos (cam_iter dx dy dt c n).yaw
                  * Real.cos (cam_iter dx dy dt c n).pitch,
               -Real.sin (cam_iter dx dy dt c n).pitch,
               Real.sin (cam_iter dx dy dt c n).yaw
                  * Real.cos (cam_iter dx dy dt c n).pitch⟩)
    ∧ ∃ N : ℕ, ∀ n : ℕ, N ≤ n → (cam_iter dx dy dt c n).pitch = pitch_upper := by
  have hdy : dy ≠ 0 := by
    intro h
    rw [h] at hstep
    simp at hstep
  have hdiff : ((dx, dy) : ℝ × ℝ) ≠ (0, 0) := by
    intro h
    exact hdy (congrArg Prod.snd h)
  have hmem : ∀ x : Camera,
      pitch_lower ≤ (Camera.update_direction (dx, dy) dt x).pitch
      ∧ (Camera.update_direction (dx, dy) dt x).pitch ≤ pitch_upper := by
    intro x
    rw [update_direction_pitch x dx dy dt hdiff]
    exact rust_clamp_mem _ _ _ pitch_lower_le_upper
  have hmem_iter : ∀ n : ℕ, 1 ≤ n →
      pitch_lower ≤ (cam_iter dx dy dt c n).pitch
      ∧ (cam_iter dx dy dt c n).pitch ≤ pitch_upper := by
    intro n hn
    rcases n with _ | m
    · omega
    · rw [cam_iter_succ]
      exact hmem _
  have hclosed : ∀ n : ℕ, 1 ≤ n → (cam_iter dx dy dt c n).pitch
      = min pitch_upper
          ((cam_iter dx dy dt c 1).pitch + ((n - 1 : ℕ) : ℝ) * (dy * (3 / 2) * dt)) := by
    intro n hn
    induction n with
    | zero => omega
    | succ m ihm =>
        rcases Nat.lt_or_ge m 1 with h1 | h1
        · have hm0 : m = 0 := by omega
          subst hm0
          simp only [Nat.sub_self, Nat.cast_zero, zero_mul, add_zero]
          exact (min_eq_right (hmem_iter 1 (le_refl 1)).2).symm
        · have ih := ihm h1
          rw [cam_iter_succ, update_direction_pitch _ dx dy dt hdiff, ih]
          have hlb : pitch_lower
              ≤ min pitch_upper
                  ((cam_iter dx dy dt c 1).pitch
                    + ((m - 1 : ℕ) : ℝ) * (dy * (3 / 2) * dt)) := ih ▸ (hmem_iter m h1).1
          rw [rust_clamp_eq_min _ _ _ (by linarith)]
          rw [min_shift_right _ _ _ (le_of_lt hstep)]
          congr 1
          have hc : ((m - 1 : ℕ) : ℝ) + 1 = ((m + 1 - 1 : ℕ) : ℝ) := by
            have h2 : m - 1 + 1 = m := Nat.succ_pred_eq_of_pos h1
            have h3 : m + 1 - 1 = m := by omega
            rw [h3, ← h2]
            push_cast
            ring
          nlinarith [hc]
  refine ⟨fun n hn => ⟨(hmem_iter n hn).1, (hmem_iter n hn).2, hclosed n hn, ?_⟩, ?_⟩
  · rcases n with _ | m
    · omega
    · rw [cam_iter_succ]
      exact update_direction_spherical _ dx dy dt hdiff
  · obtain ⟨N0, hN0⟩ := exists_nat_gt
      ((pitch_upper - (cam_iter dx dy dt c 1).pitch) / (dy * (3 / 2) * dt))
    refine ⟨N0 + 1, fun n hn => ?_⟩
    have hn1 : 1 ≤ n := by omega
    rw [hclosed n hn1]
    apply min_eq_left
    have hcast : (N0 : ℝ) ≤ ((n - 1 : ℕ) : ℝ) := by
      have hle : N0 ≤ n - 1 := by omega
      exact_mod_cast hle
    have hmul : (pitch_upper - (cam_iter dx dy dt c 1).pitch) / (dy * (3 / 2) * dt)
          * (dy * (3 / 2) * dt)
        < (N0 : ℝ) * (dy * (3 / 2) * dt) :=
      mul_lt_mul_of_pos_right hN0 hstep
    rw [div_mul_cancel₀ _ (ne_of_gt hstep)] at hmul
    have hmul2 : (N0 : ℝ) * (dy * (3 / 2) * dt)
        ≤ ((n - 1 : ℕ) : ℝ) * (dy * (3 / 2) * dt) :=
      mul_le_mul_of_nonneg_right hcast (le_of_lt hstep)
    linarith

theorem c8_witness :
    (0 : ℝ) < 1 * (3 / 2) * 1
    ∧ ∃ N : ℕ, ∀ n : ℕ, N ≤ n →
        (cam_iter 0 1 1 c8_camera n).pitch = pitch_upper :=
  ⟨by norm_num, (c8_pitch_clamp_convergence c8_camera 0 1 1 (by norm_num)).2⟩

end WgpuTest
